import Mathlib

/-!
Verification of the protocol bridge in `copilot_server.py` (fresh-copilot).

The development shallowly embeds, from the source:
  * the Content-Length framing decoder of `read_lsp_messages` (lines 95-136)
    and the framing encoder of `lsp_send` (lines 74-77), over byte lists (bytes are plain naturals);
  * the JSON value model (Python values produced by `json.loads`), the
    response/notification/server-request router `handle_lsp_message`
    (lines 142-203) with the `pending_requests` registry, and
    `dispatch_lsp_response` (lines 206-245);
  * the host-command dispatcher `handle_plugin_message` (lines 248-353);
  * one poll iteration of the IPC command-log watcher `cmd_file_watcher`
    (lines 356-386), including a small model of `json.loads` on a line.

Python exceptions are modelled with `Except`: `PyErr.key` stands for
`KeyError` (caught by the watcher), `PyErr.other` for exception classes the
surrounding code does not catch (`AttributeError`, `TypeError`, ...).
`int()` applied to a Content-Length value is modelled as parsing an optional
leading plus sign followed by decimal digits; signs/underscore forms beyond
that are not exercised by any stream considered here.
-/

/-- The frame separator `b"\r\n\r\n"` searched by `buf.find` (line 111). -/
def crlf2 : List Nat := [13, 10, 13, 10]

/-- `buf.find(b"\r\n\r\n")`: index of the first occurrence, `none` for `-1`. -/
def find4 : List Nat → Option Nat
  | [] => none
  | a :: t => if crlf2.isPrefixOf (a :: t) then some 0 else (find4 t).map (· + 1)

/-- `header_bytes.split(b"\r\n")` (line 116). -/
def splitOnCRLF : List Nat → List (List Nat)
  | [] => [[]]
  | 13 :: 10 :: t => [] :: splitOnCRLF t
  | a :: t =>
    match splitOnCRLF t with
    | [] => [[a]]
    | h :: r => (a :: h) :: r

/-- Nat-wise ASCII lowercasing, as in `line.lower()` (line 117). -/
def lowerByte (b : Nat) : Nat := if 65 ≤ b ∧ b ≤ 90 then b + 32 else b

def lowerBytes (l : List Nat) : List Nat := l.map lowerByte

/-- The bytes of `b"content-length:"` compared by `startswith` (line 117). -/
def clMatchBytes : List Nat :=
  [99, 111, 110, 116, 101, 110, 116, 45, 108, 101, 110, 103, 116, 104, 58]

/-- The bytes of `"Content-Length: "` written by `lsp_send` (line 75). -/
def clHeaderBytes : List Nat :=
  [67, 111, 110, 116, 101, 110, 116, 45, 76, 101, 110, 103, 116, 104, 58, 32]

/-- ASCII whitespace stripped by `bytes.strip()`. -/
def isWSByte (b : Nat) : Bool :=
  b = 32 || b = 9 || b = 10 || b = 13 || b = 11 || b = 12

def stripBytes (l : List Nat) : List Nat :=
  ((l.dropWhile isWSByte).reverse.dropWhile isWSByte).reverse

/-- `line.split(b":", 1)[1]`: everything after the first colon (line 118).
The caller's `startswith` guard guarantees a colon is present. -/
def afterColon : List Nat → List Nat
  | [] => []
  | a :: t => if a = 58 then t else afterColon t

def isDigitByte (b : Nat) : Bool := 48 ≤ b && b ≤ 57

def digitsVal (l : List Nat) : Nat := l.foldl (fun a b => 10 * a + (b - 48)) 0

/-- `int(bs)` on a stripped byte string, for the nonnegative decimal forms the
protocol uses: optional `+`, then at least one digit.  `none` models the
`ValueError` that `int()` raises on anything else. -/
def parseCLNat (l : List Nat) : Option Nat :=
  let core := if l.head? = some 43 then l.tail else l
  if !core.isEmpty && core.all isDigitByte then some (digitsVal core) else none

/-- The value extracted from one header line (line 118). -/
def clLineValue (line : List Nat) : Option Nat :=
  parseCLNat (stripBytes (afterColon line))

/-- The loop over header lines (lines 115-119): first line whose lowercase
starts with `content-length:` supplies the value; a malformed value raises
`ValueError` (modelled as `.error`); no match leaves `content_length = None`. -/
def findContentLength : List (List Nat) → Except Unit (Option Nat)
  | [] => .ok none
  | line :: rest =>
    if clMatchBytes.isPrefixOf (lowerBytes line) then
      match clLineValue line with
      | some n => .ok (some n)
      | none => .error ()
    else findContentLength rest

def contentLengthOf (header : List Nat) : Except Unit (Option Nat) :=
  findContentLength (splitOnCRLF header)

/-- The inner `while True` decode loop of `read_lsp_messages` (lines 110-128),
written with explicit fuel so that it is kernel-computable.  It returns the
bodies handed to `json.loads`/`handle_lsp_message`, in order, together with
the residual buffer (`.ok`) or the escaped `ValueError` (`.error`).  Note the
`break` on line 123: a header block without a Content-Length is discarded and
the pass ends there. -/
def processBufGo : Nat → List Nat → List (List Nat) × Except Unit (List Nat)
  | 0, buf => ([], .ok buf)
  | fuel + 1, buf =>
    match find4 buf with
    | none => ([], .ok buf)
    | some he =>
      match contentLengthOf (buf.take he) with
      | .error _ => ([], .error ())
      | .ok none => ([], .ok (buf.drop (he + 4)))
      | .ok (some cl) =>
        if buf.length < he + 4 + cl then ([], .ok buf)
        else
          let body := (buf.drop (he + 4)).take cl
          let res := processBufGo fuel (buf.drop (he + 4 + cl))
          (body :: res.1, res.2)

/-- One decode pass over a buffer.  Each loop iteration consumes at least four
bytes, so `buf.length` is enough fuel. -/
def processBuf (buf : List Nat) : List (List Nat) × Except Unit (List Nat) :=
  processBufGo buf.length buf

/-- Decimal digit bytes of `n`, as produced by `f"{n}"` in `lsp_send`. -/
def natDigitsGo : Nat → Nat → List Nat
  | 0, _ => []
  | f + 1, n => if n < 10 then [48 + n] else natDigitsGo f (n / 10) ++ [48 + n % 10]

def natDigits (n : Nat) : List Nat := natDigitsGo (n + 1) n

/-- The single header line `f"Content-Length: {n}"` of `lsp_send` (line 75). -/
def headerLineOf (n : Nat) : List Nat := clHeaderBytes ++ natDigits n

/-- `lsp_send`'s whole frame for a body: header line, blank line, body. -/
def frameOf (body : List Nat) : List Nat :=
  headerLineOf body.length ++ crlf2 ++ body

/-- A valid sequence of framed messages: the concatenated frames. -/
def lspStream (msgs : List (List Nat)) : List Nat := (msgs.map frameOf).flatten

/-- Incremental decoding: the outer reader loop (lines 103-136) appends each
arriving chunk to the residual buffer and runs one decode pass; an escaped
exception stops the loop. -/
def feedChunks (buf : List Nat) : List (List Nat) → List (List Nat) × Except Unit (List Nat)
  | [] => ([], .ok buf)
  | c :: cs =>
    match processBuf (buf ++ c) with
    | (ms, .error e) => (ms, .error e)
    | (ms, .ok buf') =>
      match feedChunks buf' cs with
      | (ms', r) => (ms ++ ms', r)

/-! ### Fuel adequacy and one-step equations for the decode pass -/

theorem processBufGo_nil (f : Nat) : processBufGo f [] = ([], .ok []) := by
  cases f <;> simp [processBufGo, find4]

theorem processBufGo_irrel : ∀ f₁ f₂ (buf : List Nat), buf.length ≤ f₁ → buf.length ≤ f₂ →
    processBufGo f₁ buf = processBufGo f₂ buf := by
  intro f₁
  induction f₁ with
  | zero =>
    intro f₂ buf h₁ _
    have : buf = [] := List.length_eq_zero.mp (Nat.le_zero.mp h₁)
    subst this
    rw [processBufGo_nil, processBufGo_nil]
  | succ f ih =>
    intro f₂ buf h₁ h₂
    cases buf with
    | nil => rw [processBufGo_nil, processBufGo_nil]
    | cons a t =>
      cases f₂ with
      | zero => simp at h₂
      | succ f₂' =>
        show processBufGo (f + 1) (a :: t) = processBufGo (f₂' + 1) (a :: t)
        simp only [processBufGo]
        cases hfind : find4 (a :: t) with
        | none => rfl
        | some he =>
          cases hcl : contentLengthOf ((a :: t).take he) with
          | error e => simp only [hcl]
          | ok o =>
            cases o with
            | none => simp only [hcl]
            | some cl =>
              simp only [hcl]
              split
              · rfl
              · next hlen =>
                have hle : he + 4 + cl ≤ (a :: t).length := Nat.le_of_not_lt hlen
                have h₁' : ((a :: t).drop (he + 4 + cl)).length ≤ f := by
                  rw [List.length_drop]; omega
                have h₂' : ((a :: t).drop (he + 4 + cl)).length ≤ f₂' := by
                  rw [List.length_drop]; omega
                rw [ih f₂' _ h₁' h₂']

theorem processBuf_eq_go (f : Nat) (buf : List Nat) (h : buf.length ≤ f) :
    processBuf buf = processBufGo f buf :=
  processBufGo_irrel buf.length f buf (Nat.le_refl _) h

/-- One-step equation: no header terminator in the buffer. -/
theorem processBuf_none {buf : List Nat} (h : find4 buf = none) :
    processBuf buf = ([], .ok buf) := by
  cases buf with
  | nil => simp [processBuf, processBufGo_nil]
  | cons a t =>
    show processBufGo (t.length + 1) (a :: t) = _
    simp only [processBufGo, h]

theorem find4_ne_nil {buf : List Nat} {he : Nat} (h : find4 buf = some he) : buf ≠ [] := by
  intro hn; subst hn; simp [find4] at h

/-- One-step equation: header block without Content-Length is discarded and
the pass breaks (line 123). -/
theorem processBuf_noCL {buf : List Nat} {he : Nat} (h : find4 buf = some he)
    (hcl : contentLengthOf (buf.take he) = .ok none) :
    processBuf buf = ([], .ok (buf.drop (he + 4))) := by
  cases buf with
  | nil => exact absurd rfl (find4_ne_nil h)
  | cons a t =>
    show processBufGo (t.length + 1) (a :: t) = _
    simp only [processBufGo, h, hcl]

/-- One-step equation: body not fully buffered yet (line 126). -/
theorem processBuf_short {buf : List Nat} {he cl : Nat} (h : find4 buf = some he)
    (hcl : contentLengthOf (buf.take he) = .ok (some cl))
    (hlen : buf.length < he + 4 + cl) :
    processBuf buf = ([], .ok buf) := by
  cases buf with
  | nil => exact absurd rfl (find4_ne_nil h)
  | cons a t =>
    show processBufGo (t.length + 1) (a :: t) = _
    simp only [processBufGo, h, hcl]
    rw [if_pos hlen]

/-- One-step equation: a complete frame is consumed and the pass continues. -/
theorem processBuf_frame {buf : List Nat} {he cl : Nat} (h : find4 buf = some he)
    (hcl : contentLengthOf (buf.take he) = .ok (some cl))
    (hlen : he + 4 + cl ≤ buf.length) :
    processBuf buf =
      ((buf.drop (he + 4)).take cl :: (processBuf (buf.drop (he + 4 + cl))).1,
       (processBuf (buf.drop (he + 4 + cl))).2) := by
  cases buf with
  | nil => exact absurd rfl (find4_ne_nil h)
  | cons a t =>
    have hnlt : ¬ (a :: t).length < he + 4 + cl := Nat.not_lt.mpr hlen
    have hgo : processBuf ((a :: t).drop (he + 4 + cl)) = processBufGo t.length ((a :: t).drop (he + 4 + cl)) := by
      refine processBuf_eq_go _ _ ?_
      rw [List.length_drop]
      simp only [List.length_cons] at hlen ⊢
      omega
    show processBufGo (t.length + 1) (a :: t) = _
    simp only [processBufGo, h, hcl]
    rw [if_neg hnlt, hgo]

/-! ### Locating the header terminator -/

theorem head_eq_13_of_crlf2_isPrefixOf {l : List Nat} (h : crlf2.isPrefixOf l = true) :
    l.head? = some 13 := by
  cases l with
  | nil => simp [crlf2, List.isPrefixOf] at h
  | cons a t =>
    have hp : crlf2 <+: a :: t := List.isPrefixOf_iff_prefix.mp h
    obtain ⟨u, hu⟩ := hp
    simp [crlf2] at hu
    simp [hu.1]

theorem find4_none_iff {l : List Nat} :
    find4 l = none ↔ ∀ i, crlf2.isPrefixOf (l.drop i) = false := by
  induction l with
  | nil => simp [find4, crlf2, List.isPrefixOf]
  | cons a t ih =>
    by_cases h : crlf2.isPrefixOf (a :: t)
    · simp only [find4, h, if_true]
      constructor
      · intro hcontra; exact absurd hcontra (by simp)
      · intro hall
        have := hall 0
        simp [h] at this
    · simp only [find4, h, if_false]
      constructor
      · intro hnone i
        have ht : find4 t = none := by
          cases hft : find4 t with
          | none => rfl
          | some v => rw [hft] at hnone; simp at hnone
        cases i with
        | zero => simpa using (Bool.eq_false_iff.mpr h)
        | succ j => exact (ih.mp ht) j
      · intro hall
        have ht : find4 t = none := ih.mpr (fun i => hall (i + 1))
        rw [ht]; rfl

theorem find4_eq_some_of {l : List Nat} {i : Nat}
    (hp : crlf2.isPrefixOf (l.drop i) = true)
    (hmin : ∀ j, j < i → crlf2.isPrefixOf (l.drop j) = false) :
    find4 l = some i := by
  induction l generalizing i with
  | nil =>
    rw [List.drop_nil] at hp
    simp [crlf2, List.isPrefixOf] at hp
  | cons a t ih =>
    cases i with
    | zero =>
      rw [List.drop_zero] at hp
      simp [find4, hp]
    | succ j =>
      have h0 : crlf2.isPrefixOf (a :: t) = false := by
        simpa using hmin 0 (Nat.succ_pos j)
      have ht : find4 t = some j := by
        refine ih (by simpa using hp) ?_
        intro k hk
        simpa using hmin (k + 1) (Nat.succ_lt_succ hk)
      simp [find4, h0, ht]

/-- A list of bytes free of carriage returns. -/
def No13 (l : List Nat) : Prop := ∀ b ∈ l, b ≠ 13

/-- The first `\r\n\r\n` in `H ++ \r\n\r\n ++ z` is exactly at `H.length`,
whatever `z` is, provided `H` contains no `\r`. -/
theorem find4_header (H z : List Nat) (h13 : No13 H) :
    find4 (H ++ crlf2 ++ z) = some H.length := by
  apply find4_eq_some_of
  · have : (H ++ crlf2 ++ z).drop H.length = crlf2 ++ z := by
      rw [List.append_assoc, List.drop_left]
    rw [this]
    exact List.isPrefixOf_iff_prefix.mpr (List.prefix_append _ _)
  · intro j hj
    apply Bool.eq_false_iff.mpr
    intro hpre
    have hhead := head_eq_13_of_crlf2_isPrefixOf hpre
    rw [List.head?_drop] at hhead
    have hj' : j < (H ++ crlf2 ++ z).length := by
      simp [List.length_append]; omega
    have hjH : (H ++ crlf2 ++ z)[j]? = H[j]? := by
      rw [List.append_assoc]
      exact List.getElem?_append_left hj
    rw [hjH] at hhead
    have : H[j] = 13 := by
      have hjlen : j < H.length := hj
      rw [List.getElem?_eq_getElem hjlen] at hhead
      exact Option.some.inj hhead
    exact h13 _ (List.getElem_mem _) this

/-- A proper prefix of `H ++ \r\n\r\n` shorter than the terminator's end
contains no full `\r\n\r\n`. -/
theorem find4_none_of_header_fragment {buf H : List Nat} (h13 : No13 H)
    (hpre : buf <+: H ++ crlf2) (hlen : buf.length < H.length + 4) :
    find4 buf = none := by
  apply find4_none_iff.mpr
  intro i
  apply Bool.eq_false_iff.mpr
  intro hp
  have hup : 4 ≤ (buf.drop i).length := by
    have := (List.isPrefixOf_iff_prefix.mp hp).length_le
    simpa [crlf2] using this
  rw [List.length_drop] at hup
  have hilen : i < H.length := by omega
  have hhead := head_eq_13_of_crlf2_isPrefixOf hp
  rw [List.head?_drop] at hhead
  have hibuf : i < buf.length := by omega
  have h1 : buf[i]? = (H ++ crlf2)[i]? := by
    rw [List.getElem?_eq_getElem hibuf]
    rw [hpre.getElem hibuf]
    rw [List.getElem?_eq_getElem (Nat.lt_of_lt_of_le hibuf hpre.length_le)]
  have h2 : (H ++ crlf2)[i]? = H[i]? := List.getElem?_append_left hilen
  rw [h1, h2, List.getElem?_eq_getElem hilen] at hhead
  exact h13 _ (List.getElem_mem _) (Option.some.inj hhead)

/-! ### Parsing the generated header line -/

theorem natDigitsGo_digits : ∀ f n, n < f → ∀ b ∈ natDigitsGo f n, isDigitByte b = true := by
  intro f
  induction f with
  | zero => intro n hn; omega
  | succ f ih =>
    intro n hn b hb
    by_cases h10 : n < 10
    · simp only [natDigitsGo, h10, if_true] at hb
      simp at hb
      subst hb
      simp [isDigitByte]; omega
    · simp only [natDigitsGo, h10, if_false, List.mem_append] at hb
      rcases hb with hb | hb
      · have : n / 10 < f := by omega
        exact ih (n / 10) this b hb
      · simp at hb
        subst hb
        have : n % 10 < 10 := Nat.mod_lt _ (by omega)
        simp [isDigitByte]; omega

theorem natDigitsGo_ne_nil : ∀ f n, n < f → natDigitsGo f n ≠ [] := by
  intro f n hn
  cases f with
  | zero => omega
  | succ f =>
    by_cases h10 : n < 10 <;> simp [natDigitsGo, h10]

theorem natDigitsGo_val : ∀ f n, n < f → digitsVal (natDigitsGo f n) = n := by
  intro f
  induction f with
  | zero => intro n hn; omega
  | succ f ih =>
    intro n hn
    by_cases h10 : n < 10
    · simp [natDigitsGo, h10, digitsVal]
    · have hdiv : n / 10 < f := by omega
      simp only [natDigitsGo, h10, if_false]
      show digitsVal (natDigitsGo f (n / 10) ++ [48 + n % 10]) = n
      unfold digitsVal
      rw [List.foldl_append]
      have := ih (n / 10) hdiv
      unfold digitsVal at this
      rw [this]
      simp only [List.foldl_cons, List.foldl_nil]
      omega

theorem natDigits_digits (n : Nat) : ∀ b ∈ natDigits n, isDigitByte b = true :=
  natDigitsGo_digits (n + 1) n (Nat.lt_succ_self n)

theorem natDigits_ne_nil (n : Nat) : natDigits n ≠ [] :=
  natDigitsGo_ne_nil (n + 1) n (Nat.lt_succ_self n)

theorem natDigits_val (n : Nat) : digitsVal (natDigits n) = n :=
  natDigitsGo_val (n + 1) n (Nat.lt_succ_self n)

theorem no13_clHeaderBytes : No13 clHeaderBytes := by
  intro b hb
  simp [clHeaderBytes] at hb
  rcases hb with h | h | h | h | h | h | h | h | h | h | h | h | h | h | h | h <;> omega

theorem no13_natDigits (n : Nat) : No13 (natDigits n) := by
  intro b hb
  have := natDigits_digits n b hb
  simp [isDigitByte] at this
  omega

theorem no13_headerLine (n : Nat) : No13 (headerLineOf n) := by
  intro b hb
  rw [headerLineOf, List.mem_append] at hb
  rcases hb with h | h
  · exact no13_clHeaderBytes b h
  · exact no13_natDigits n b h

theorem splitOnCRLF_cons_ne13 (a : Nat) (t : List Nat) (ha : a ≠ 13) :
    splitOnCRLF (a :: t) =
      match splitOnCRLF t with
      | [] => [[a]]
      | h :: r => (a :: h) :: r := by
  rw [splitOnCRLF.eq_def]
  split
  · rename_i heq; cases heq
  · rename_i heq; injection heq with h1 h2; exact absurd h1 ha
  · rename_i x heq
    injection heq with h1 h2
    subst h1; subst h2; rfl

theorem splitOnCRLF_no13 : ∀ l : List Nat, No13 l → splitOnCRLF l = [l] := by
  intro l
  induction l with
  | nil => intro _; rfl
  | cons a t ih =>
    intro h13
    have ha : a ≠ 13 := h13 a (List.mem_cons_self _ _)
    have ht : splitOnCRLF t = [t] := ih (fun b hb => h13 b (List.mem_cons_of_mem _ hb))
    rw [splitOnCRLF_cons_ne13 a t ha, ht]

theorem dropWhile_eq_self_of_all {p : Nat → Bool} {l : List Nat}
    (h : ∀ b ∈ l, p b = false) : l.dropWhile p = l := by
  cases l with
  | nil => rfl
  | cons a t => rw [List.dropWhile_cons, h a (List.mem_cons_self _ _)]; simp

theorem notWS_of_digit {b : Nat} (h : isDigitByte b = true) : isWSByte b = false := by
  simp only [isDigitByte, Bool.and_eq_true, decide_eq_true_eq] at h
  simp only [isWSByte]
  simp only [Bool.or_eq_false_iff, decide_eq_false_iff_not]
  omega

theorem stripBytes_space_digits {d : List Nat} (hd : ∀ b ∈ d, isDigitByte b = true) :
    stripBytes (32 :: d) = d := by
  have hnotws : ∀ b ∈ d, isWSByte b = false := fun b hb => notWS_of_digit (hd b hb)
  have h1 : (32 :: d).dropWhile isWSByte = d := by
    rw [List.dropWhile_cons]
    have : isWSByte 32 = true := rfl
    rw [this]
    simp only [if_true]
    exact dropWhile_eq_self_of_all hnotws
  have h2 : d.reverse.dropWhile isWSByte = d.reverse :=
    dropWhile_eq_self_of_all (fun b hb => hnotws b (List.mem_reverse.mp hb))
  rw [stripBytes, h1, h2, List.reverse_reverse]

theorem parseCLNat_digits {d : List Nat} (hne : d ≠ [])
    (hd : ∀ b ∈ d, isDigitByte b = true) : parseCLNat d = some (digitsVal d) := by
  have hhead : d.head? ≠ some 43 := by
    cases d with
    | nil => simp
    | cons a t =>
      have := hd a (List.mem_cons_self _ _)
      simp only [isDigitByte, Bool.and_eq_true, decide_eq_true_eq] at this
      simp only [List.head?_cons, ne_eq, Option.some.injEq]
      omega
  have hall : d.all isDigitByte = true := List.all_eq_true.mpr hd
  have hne' : d.isEmpty = false := by
    cases d with
    | nil => exact absurd rfl hne
    | cons a t => rfl
  simp only [parseCLNat, if_neg hhead]
  simp [hall, hne']

theorem lowerBytes_clHeader : lowerBytes clHeaderBytes = clMatchBytes ++ [32] := by decide

/-- The header line `lsp_send` produces parses back to its own length. -/
theorem contentLengthOf_headerLine (n : Nat) :
    contentLengthOf (headerLineOf n) = .ok (some n) := by
  have hsplit : splitOnCRLF (headerLineOf n) = [headerLineOf n] :=
    splitOnCRLF_no13 _ (no13_headerLine n)
  rw [contentLengthOf, hsplit]
  have hpre : clMatchBytes.isPrefixOf (lowerBytes (headerLineOf n)) = true := by
    rw [headerLineOf, lowerBytes, List.map_append]
    show clMatchBytes.isPrefixOf (lowerBytes clHeaderBytes ++ lowerBytes (natDigits n)) = true
    rw [lowerBytes_clHeader, List.append_assoc]
    exact List.isPrefixOf_iff_prefix.mpr (List.prefix_append _ _)
  have hafter : afterColon (headerLineOf n) = 32 :: natDigits n := rfl
  have hval : clLineValue (headerLineOf n) = some n := by
    rw [clLineValue, hafter, stripBytes_space_digits (natDigits_digits n),
        parseCLNat_digits (natDigits_ne_nil n) (natDigits_digits n), natDigits_val]
  rw [findContentLength]
  simp [hpre, hval]

/-! ### The decode pass on valid streams -/

theorem frameOf_length (m : List Nat) :
    (frameOf m).length = (headerLineOf m.length).length + 4 + m.length := by
  simp [frameOf, crlf2, List.length_append]
  omega

/-- No progress is made on a proper prefix of a single frame: the decoder
waits for more input and keeps the buffer unchanged. -/
theorem processBuf_frame_partial {m buf : List Nat} (hpre : buf <+: frameOf m)
    (hlen : buf.length < (frameOf m).length) : processBuf buf = ([], .ok buf) := by
  by_cases hshort : buf.length < (headerLineOf m.length).length + 4
  · have hpre2 : buf <+: headerLineOf m.length ++ crlf2 := by
      refine List.prefix_of_prefix_length_le hpre ?_ ?_
      · show headerLineOf m.length ++ crlf2 <+: (headerLineOf m.length ++ crlf2) ++ m
        exact List.prefix_append _ _
      · simp [List.length_append, crlf2]
        omega
    exact processBuf_none (find4_none_of_header_fragment (no13_headerLine _) hpre2 hshort)
  · push_neg at hshort
    have hhc : headerLineOf m.length ++ crlf2 <+: buf := by
      refine List.prefix_of_prefix_length_le ?_ hpre ?_
      · show headerLineOf m.length ++ crlf2 <+: (headerLineOf m.length ++ crlf2) ++ m
        exact List.prefix_append _ _
      · simp [List.length_append, crlf2]
        omega
    obtain ⟨t, ht⟩ := hhc
    have hfind : find4 buf = some (headerLineOf m.length).length := by
      rw [← ht]
      exact find4_header _ t (no13_headerLine _)
    have htake : buf.take (headerLineOf m.length).length = headerLineOf m.length := by
      rw [← ht, List.append_assoc, List.take_left]
    have hcl : contentLengthOf (buf.take (headerLineOf m.length).length) = .ok (some m.length) := by
      rw [htake]; exact contentLengthOf_headerLine _
    refine processBuf_short hfind hcl ?_
    have hblen : buf.length = (headerLineOf m.length).length + 4 + t.length := by
      rw [← ht]
      simp [List.length_append, crlf2]
      omega
    rw [frameOf_length] at hlen
    omega

/-- Scanning any decomposition `buf ++ future` of a valid stream: the pass
decodes exactly the frames complete in `buf`, leaves a residue that is a
proper prefix of the next frame (or empty at the end), and never raises. -/
theorem processBuf_stream : ∀ (ms : List (List Nat)) (buf future : List Nat),
    buf ++ future = lspStream ms →
    ∃ j buf', processBuf buf = (ms.take j, .ok buf') ∧
      buf' ++ future = lspStream (ms.drop j) ∧
      ((ms.drop j = [] ∧ buf' = []) ∨
        ∃ m tl, ms.drop j = m :: tl ∧ buf'.length < (frameOf m).length) := by
  intro ms
  induction ms with
  | nil =>
    intro buf future h
    rw [lspStream] at h
    simp only [List.map_nil, List.flatten_nil] at h
    obtain ⟨hb, hf⟩ := List.append_eq_nil.mp h
    subst hb; subst hf
    refine ⟨0, [], ?_, rfl, Or.inl ⟨rfl, rfl⟩⟩
    exact processBuf_none rfl
  | cons m tl ih =>
    intro buf future h
    have hstream : lspStream (m :: tl) = frameOf m ++ lspStream tl := by
      rw [lspStream, List.map_cons, List.flatten_cons]; rfl
    rw [hstream] at h
    by_cases hblen : buf.length < (frameOf m).length
    · have hpre : buf <+: frameOf m :=
        List.prefix_of_prefix_length_le ⟨future, h⟩ (List.prefix_append _ _)
          (Nat.le_of_lt hblen)
      refine ⟨0, buf, processBuf_frame_partial hpre hblen, ?_, ?_⟩
      · rw [List.drop_zero, hstream]; exact h
      · exact Or.inr ⟨m, tl, rfl, hblen⟩
    · push_neg at hblen
      have hfp : frameOf m <+: buf :=
        List.prefix_of_prefix_length_le (List.prefix_append _ _) ⟨future, h⟩ hblen
      obtain ⟨buf₂, hbuf₂⟩ := hfp
      have hrest : buf₂ ++ future = lspStream tl := by
        apply @List.append_cancel_left _ (frameOf m)
        rw [← List.append_assoc, hbuf₂, h]
      subst hbuf₂
      have hfind : find4 (frameOf m ++ buf₂) = some (headerLineOf m.length).length := by
        show find4 (((headerLineOf m.length ++ crlf2) ++ m) ++ buf₂) = _
        rw [List.append_assoc]
        exact find4_header _ _ (no13_headerLine _)
      have htake : (frameOf m ++ buf₂).take (headerLineOf m.length).length
          = headerLineOf m.length := by
        show (((headerLineOf m.length ++ crlf2) ++ m) ++ buf₂).take _ = _
        rw [List.append_assoc, List.append_assoc, List.take_left]
      have hcl : contentLengthOf ((frameOf m ++ buf₂).take (headerLineOf m.length).length)
          = .ok (some m.length) := by
        rw [htake]; exact contentLengthOf_headerLine _
      have hlen4 : (headerLineOf m.length ++ crlf2).length
          = (headerLineOf m.length).length + 4 := by
        simp [List.length_append, crlf2]
      have hlenfull : ((headerLineOf m.length ++ crlf2) ++ m).length
          = (headerLineOf m.length).length + 4 + m.length := by
        simp [List.length_append, crlf2]
        omega
      have htotal : (headerLineOf m.length).length + 4 + m.length
          ≤ (frameOf m ++ buf₂).length := by
        rw [List.length_append, frameOf_length]
        omega
      have hdrop1 : (frameOf m ++ buf₂).drop ((headerLineOf m.length).length + 4)
          = m ++ buf₂ := by
        show (((headerLineOf m.length ++ crlf2) ++ m) ++ buf₂).drop _ = _
        rw [List.append_assoc, List.drop_left' hlen4]
      have hbody : ((frameOf m ++ buf₂).drop ((headerLineOf m.length).length + 4)).take m.length
          = m := by
        rw [hdrop1, List.take_left]
      have hdrop2 : (frameOf m ++ buf₂).drop ((headerLineOf m.length).length + 4 + m.length)
          = buf₂ := by
        show (((headerLineOf m.length ++ crlf2) ++ m) ++ buf₂).drop _ = _
        rw [List.drop_left' hlenfull]
      have hstep := processBuf_frame hfind hcl htotal
      rw [hbody, hdrop2] at hstep
      obtain ⟨j, buf', hpb, hfut, hdisj⟩ := ih buf₂ future hrest
      refine ⟨j + 1, buf', ?_, ?_, ?_⟩
      · rw [hstep, hpb, List.take_succ_cons]
      · rw [List.drop_succ_cons]; exact hfut
      · rw [List.drop_succ_cons]; exact hdisj

/-- Decoding a complete valid stream in one pass yields all messages. -/
theorem processBuf_stream_complete (ms : List (List Nat)) :
    processBuf (lspStream ms) = (ms, .ok []) := by
  obtain ⟨j, buf', hpb, hfut, hdisj⟩ :=
    processBuf_stream ms (lspStream ms) [] (List.append_nil _)
  rw [List.append_nil] at hfut
  rcases hdisj with ⟨hdrop, hbuf⟩ | ⟨m, tl, hdrop, hlen⟩
  · subst hbuf
    have hj : ms.take j = ms := by
      have := List.take_append_drop j ms
      rw [hdrop, List.append_nil] at this
      exact this
    rw [hpb, hj]
  · exfalso
    rw [hdrop] at hfut
    have : (frameOf m).length ≤ buf'.length := by
      rw [hfut, lspStream, List.map_cons, List.flatten_cons, List.length_append]
      omega
    omega

/-- Incremental feeding of a chunked valid stream consumes it completely. -/
theorem feedChunks_stream : ∀ (chunks ms : List (List Nat)) (buf : List Nat),
    buf ++ chunks.flatten = lspStream ms →
    ((ms = [] ∧ buf = []) ∨ ∃ m tl, ms = m :: tl ∧ buf.length < (frameOf m).length) →
    feedChunks buf chunks = (ms, .ok []) := by
  intro chunks
  induction chunks with
  | nil =>
    intro ms buf h hdisj
    rw [List.flatten_nil, List.append_nil] at h
    rcases hdisj with ⟨hms, hbuf⟩ | ⟨m, tl, hms, hlen⟩
    · subst hms; subst hbuf; rfl
    · exfalso
      subst hms
      have : (frameOf m).length ≤ buf.length := by
        rw [h, lspStream, List.map_cons, List.flatten_cons, List.length_append]
        omega
      omega
  | cons c cs ih =>
    intro ms buf h hdisj
    have h' : (buf ++ c) ++ cs.flatten = lspStream ms := by
      rw [List.append_assoc, ← List.flatten_cons]
      exact h
    obtain ⟨j, buf', hpb, hfut, hdisj'⟩ := processBuf_stream ms (buf ++ c) cs.flatten h'
    have hrec : feedChunks buf' cs = (ms.drop j, .ok []) := by
      apply ih (ms.drop j) buf' hfut
      rcases hdisj' with ⟨h1, h2⟩ | ⟨m, tl, h1, h2⟩
      · exact Or.inl ⟨h1, h2⟩
      · exact Or.inr ⟨m, tl, h1, h2⟩
    show (match processBuf (buf ++ c) with
      | (ms, .error e) => (ms, .error e)
      | (ms, .ok buf') =>
        match feedChunks buf' cs with
        | (ms', r) => (ms ++ ms', r)) = (ms, .ok [])
    rw [hpb]
    show (match feedChunks buf' cs with
      | (ms', r) => (List.take j ms ++ ms', r)) = (ms, .ok [])
    rw [hrec]
    show (List.take j ms ++ List.drop j ms, Except.ok []) = (ms, .ok [])
    rw [List.take_append_drop]

/-- C1.  For every sequence of byte chunks whose concatenation is a valid
sequence of Content-Length-framed messages, feeding the chunks to the decoder
incrementally (any split points, including one byte at a time) yields exactly
the same decoded message bodies, in the same order, as decoding the full
concatenation at once — none lost, none duplicated, no residue, no error.
Equal body byte lists give equal `json.loads` results, so the decoded
messages coincide. -/
theorem c1_incremental_decode_equiv (msgs chunks : List (List Nat))
    (h : chunks.flatten = lspStream msgs) :
    feedChunks [] chunks = (msgs, .ok [])
      ∧ processBuf (chunks.flatten) = (msgs, .ok []) := by
  constructor
  · apply feedChunks_stream chunks msgs []
    · simpa using h
    · cases msgs with
      | nil => exact Or.inl ⟨rfl, rfl⟩
      | cons m tl =>
        refine Or.inr ⟨m, tl, rfl, ?_⟩
        rw [frameOf_length]
        simp only [List.length_nil]
        omega
  · rw [h]
    exact processBuf_stream_complete msgs

theorem c1_incremental_decode_equiv_witness :
    ((lspStream [[123, 125], [49]]).map (fun b => [b])).flatten
        = lspStream [[123, 125], [49]]
      ∧ (feedChunks [] ((lspStream [[123, 125], [49]]).map (fun b => [b]))
            = ([[123, 125], [49]], .ok [])
        ∧ processBuf (((lspStream [[123, 125], [49]]).map (fun b => [b])).flatten)
            = ([[123, 125], [49]], .ok [])) :=
  ⟨by decide, c1_incremental_decode_equiv _ _ (by decide)⟩

/-- C8.  Encoding a message as `"Content-Length: <n>\r\n\r\n" + body`, with
`n` the exact byte length of the UTF-8 JSON body (as `lsp_send` does), and
then decoding yields exactly one message whose body bytes equal the original
body — hence `json.loads` recovers a message equal on every field
(id, method, params, result, error). -/
theorem c8_encode_decode_roundtrip (body : List Nat) :
    processBuf (frameOf body) = ([body], .ok []) := by
  have := processBuf_stream_complete [body]
  simpa [lspStream] using this

/-- C3 counterexample: a buffer holding a complete header block with no
Content-Length, followed by one complete well-formed frame.  The decode pass
discards the headerless block but decodes nothing in the same pass, even
though a complete decodable frame is present in the buffer. -/
theorem c3_counterexample :
    processBuf ([88] ++ crlf2 ++ frameOf [123, 125]) = ([], .ok (frameOf [123, 125]))
      ∧ processBuf (frameOf [123, 125]) = ([[123, 125]], .ok []) :=
  ⟨rfl, rfl⟩

/-- C3 amended.  When the first complete header block carries no
Content-Length (case-insensitively), the pass discards the block — the
residual buffer resumes immediately after it — and returns without error;
frames later in the buffer are decoded only on a subsequent pass, not in the
same one. -/
theorem c3_missing_content_length_discard
    {buf : List Nat} {he : Nat} (hfind : find4 buf = some he)
    (hcl : contentLengthOf (buf.take he) = .ok none) :
    processBuf buf = ([], .ok (buf.drop (he + 4))) :=
  processBuf_noCL hfind hcl

theorem c3_missing_content_length_discard_witness :
    find4 ([88] ++ crlf2 ++ frameOf [49]) = some 1
      ∧ contentLengthOf (([88] ++ crlf2 ++ frameOf [49]).take 1) = .ok none
      ∧ processBuf ([88] ++ crlf2 ++ frameOf [49])
          = ([], .ok (([88] ++ crlf2 ++ frameOf [49]).drop (1 + 4))) :=
  ⟨rfl, rfl, c3_missing_content_length_discard rfl rfl⟩

/-! ### Python/JSON value model -/

/-- Values produced by `json.loads` (JSON `null` is Python `None`).  Numbers
are modelled as integers, the only numeric payloads this protocol carries. -/
inductive JVal where
  | null
  | bool (b : Bool)
  | num (n : Int)
  | str (s : String)
  | arr (elems : List JVal)
  | obj (fields : List (String × JVal))

mutual
def JVal.beq : JVal → JVal → Bool
  | .null, .null => true
  | .bool x, .bool y => x == y
  | .num x, .num y => x == y
  | .str x, .str y => x == y
  | .arr x, .arr y => JVal.beqList x y
  | .obj x, .obj y => JVal.beqFields x y
  | _, _ => false

def JVal.beqList : List JVal → List JVal → Bool
  | [], [] => true
  | a :: t, b :: u => JVal.beq a b && JVal.beqList t u
  | _, _ => false

def JVal.beqFields : List (String × JVal) → List (String × JVal) → Bool
  | [], [] => true
  | (k, v) :: t, (k2, v2) :: u => k == k2 && JVal.beq v v2 && JVal.beqFields t u
  | _, _ => false
end

mutual
theorem JVal.eq_of_beq : ∀ a b : JVal, JVal.beq a b = true → a = b
  | .null, .null, _ => rfl
  | .bool _, .bool _, h => congrArg JVal.bool (beq_iff_eq.mp h)
  | .num _, .num _, h => congrArg JVal.num (beq_iff_eq.mp h)
  | .str _, .str _, h => congrArg JVal.str (beq_iff_eq.mp h)
  | .arr x, .arr y, h => congrArg JVal.arr (JVal.eqList_of_beq x y h)
  | .obj x, .obj y, h => congrArg JVal.obj (JVal.eqFields_of_beq x y h)
  | .null, .bool _, h | .null, .num _, h | .null, .str _, h | .null, .arr _, h
  | .null, .obj _, h
  | .bool _, .null, h | .bool _, .num _, h | .bool _, .str _, h | .bool _, .arr _, h
  | .bool _, .obj _, h
  | .num _, .null, h | .num _, .bool _, h | .num _, .str _, h | .num _, .arr _, h
  | .num _, .obj _, h
  | .str _, .null, h | .str _, .bool _, h | .str _, .num _, h | .str _, .arr _, h
  | .str _, .obj _, h
  | .arr _, .null, h | .arr _, .bool _, h | .arr _, .num _, h | .arr _, .str _, h
  | .arr _, .obj _, h
  | .obj _, .null, h | .obj _, .bool _, h | .obj _, .num _, h | .obj _, .str _, h
  | .obj _, .arr _, h => nomatch h

theorem JVal.eqList_of_beq : ∀ a b : List JVal, JVal.beqList a b = true → a = b
  | [], [], _ => rfl
  | a :: t, b :: u, h => by
    have h' : JVal.beq a b = true ∧ JVal.beqList t u = true := Bool.and_eq_true_iff.mp h
    rw [JVal.eq_of_beq a b h'.1, JVal.eqList_of_beq t u h'.2]
  | [], _ :: _, h => nomatch h
  | _ :: _, [], h => nomatch h

theorem JVal.eqFields_of_beq :
    ∀ a b : List (String × JVal), JVal.beqFields a b = true → a = b
  | [], [], _ => rfl
  | (k, v) :: t, (k2, v2) :: u, h => by
    have h' : (k == k2 && JVal.beq v v2) = true ∧ JVal.beqFields t u = true :=
      Bool.and_eq_true_iff.mp h
    have h'' : (k == k2) = true ∧ JVal.beq v v2 = true := Bool.and_eq_true_iff.mp h'.1
    rw [beq_iff_eq.mp h''.1, JVal.eq_of_beq v v2 h''.2, JVal.eqFields_of_beq t u h'.2]
  | [], _ :: _, h => nomatch h
  | _ :: _, [], h => nomatch h
end

mutual
theorem JVal.beq_refl : ∀ a : JVal, JVal.beq a a = true
  | .null => rfl
  | .bool x => beq_self_eq_true x
  | .num x => beq_self_eq_true x
  | .str x => beq_self_eq_true x
  | .arr x => JVal.beqList_refl x
  | .obj x => JVal.beqFields_refl x

theorem JVal.beqList_refl : ∀ a : List JVal, JVal.beqList a a = true
  | [] => rfl
  | a :: t =>
    Bool.and_eq_true_iff.mpr ⟨JVal.beq_refl a, JVal.beqList_refl t⟩

theorem JVal.beqFields_refl : ∀ a : List (String × JVal), JVal.beqFields a a = true
  | [] => rfl
  | (k, v) :: t =>
    Bool.and_eq_true_iff.mpr
      ⟨Bool.and_eq_true_iff.mpr ⟨beq_self_eq_true k, JVal.beq_refl v⟩, JVal.beqFields_refl t⟩
end

instance : DecidableEq JVal := fun a b =>
  if h : JVal.beq a b = true then isTrue (JVal.eq_of_beq a b h)
  else isFalse (fun he => h (he ▸ JVal.beq_refl a))

/-- Python exception classes relevant to the bridge's `except` clauses:
`key` is `KeyError` (caught by the command watcher), `other` covers
`AttributeError`/`TypeError`/... which nothing catches. -/
inductive PyErr where
  | key
  | other
  deriving DecidableEq

/-- First binding of a key in an object.  `json.loads` builds `dict`s, whose
keys are unique, so first and last bindings coincide for parsed objects. -/
def lookupStr : List (String × JVal) → String → Option JVal
  | [], _ => none
  | (k, v) :: t, s => if k = s then some v else lookupStr t s

/-- `msg.get(k)`: `None` both when the key is absent and when it is bound to
JSON `null` (the stored Python value is then `None`). -/
def pyGet (m : List (String × JVal)) (k : String) : Option JVal :=
  match lookupStr m k with
  | some .null => none
  | some v => some v
  | none => none

/-- `msg.get(k, d)`: the stored value if the key is present (`null` included),
else the default. -/
def pyGetD (m : List (String × JVal)) (k : String) (d : JVal) : JVal :=
  match lookupStr m k with
  | some v => v
  | none => d

/-- `msg[k]`: raises `KeyError` when absent. -/
def pyIndex (m : List (String × JVal)) (k : String) : Except PyErr JVal :=
  match lookupStr m k with
  | some v => .ok v
  | none => .error .key

/-- Python truthiness of a value. -/
def truthyV : JVal → Bool
  | .null => false
  | .bool b => b
  | .num n => n != 0
  | .str s => !s.isEmpty
  | .arr l => !l.isEmpty
  | .obj l => !l.isEmpty

/-- Truthiness of a `msg.get(...)` result (`None` is falsy). -/
def truthyO : Option JVal → Bool
  | none => false
  | some v => truthyV v

/-- Re-embedding a `.get` result into an emitted JSON value (`None` dumps as
`null`). -/
def optJ : Option JVal → JVal
  | none => .null
  | some v => v

/-- `method == "..."`: Python equality of a possibly-absent value against a
string literal. -/
def mEq (m : Option JVal) (s : String) : Bool :=
  match m with
  | some (.str t) => t == s
  | _ => false

/-- `.get(...)` on a value: only `dict`s have `.get`; anything else raises
`AttributeError`. -/
def pyAsObj : JVal → Except PyErr (List (String × JVal))
  | .obj kvs => .ok kvs
  | _ => .error .other

/-- `len(v)`: sized values only; `TypeError` otherwise. -/
def pyLen : JVal → Except PyErr Nat
  | .arr l => .ok l.length
  | .obj l => .ok l.length
  | .str s => .ok s.length
  | _ => .error .other

/-- `for x in v`: lists yield elements, dicts their keys, strings their
characters; anything else raises `TypeError`. -/
def pyIter : JVal → Except PyErr (List JVal)
  | .arr l => .ok l
  | .obj kvs => .ok (kvs.map (fun p => JVal.str p.1))
  | .str s => .ok (s.data.map (fun c => JVal.str (String.singleton c)))
  | _ => .error .other

mutual
/-- Python `repr` of a JSON-shaped value, used by `str` on containers. -/
def pyRepr : JVal → String
  | .null => "None"
  | .bool true => "True"
  | .bool false => "False"
  | .num n => toString n
  | .str s => "'" ++ s ++ "'"
  | .arr l => "[" ++ pyReprList l ++ "]"
  | .obj l => "\x7b" ++ pyReprFields l ++ "\x7d"

def pyReprList : List JVal → String
  | [] => ""
  | [x] => pyRepr x
  | x :: y :: t => pyRepr x ++ ", " ++ pyReprList (y :: t)

def pyReprFields : List (String × JVal) → String
  | [] => ""
  | [(k, v)] => "'" ++ k ++ "': " ++ pyRepr v
  | (k, v) :: y :: t => "'" ++ k ++ "': " ++ pyRepr v ++ ", " ++ pyReprFields (y :: t)
end

/-- Python `str(v)` as used in f-strings. -/
def pyStr : JVal → String
  | .str s => s
  | v => pyRepr v

/-- `str(msg_id)` where `msg_id` may be `None`. -/
def pyStrO : Option JVal → String
  | none => "None"
  | some v => pyStr v

/-- The visible effects of one routed message: `write_resp` lines appended to
the response log and `lsp_send` payloads written to the subprocess, in
order. -/
structure RouterOut where
  events : List JVal
  sends : List JVal
  deriving DecidableEq

/-- An entry of `pending_requests`: `lsp_id -> (plugin_req_id, method)`. -/
abbrev PendingEntry := JVal × JVal × String

/-- `msg_id in pending_requests` / value recovery. -/
def pendingLookup : List PendingEntry → JVal → Option (JVal × String)
  | [], _ => none
  | (k, pid, meth) :: t, i => if k = i then some (pid, meth) else pendingLookup t i

/-- `pending_requests.pop(msg_id)`: removes the entry. -/
def pendingErase : List PendingEntry → JVal → List PendingEntry
  | [], _ => []
  | (k, pid, meth) :: t, i =>
    if k = i then t else (k, pid, meth) :: pendingErase t i

/-! ### The message router (`handle_lsp_message`, `dispatch_lsp_response`) -/

/-- One normalized completion item (lines 216-220): `item.get` requires a
dict; anything else raises `AttributeError`. -/
def normalizeItem : JVal → Except PyErr JVal
  | .obj kvs =>
    .ok (.obj [("insertText", pyGetD kvs "insertText" (.str "")),
               ("range", pyGetD kvs "range" .null),
               ("command", pyGetD kvs "command" .null)])
  | _ => .error .other

/-- `dispatch_lsp_response(method, plugin_req_id, result)` (lines 206-245):
the per-method success translation of a resolved response.  `result` is
`msg.get("result")`, so JSON `null` arrives as `none`. -/
def dispatch_lsp_response (method : String) (pid : JVal) (result : Option JVal) :
    Except PyErr RouterOut :=
  if method = "initialize" then
    .ok ⟨[.obj [("type", .str "initialized"), ("id", pid)]],
         [.obj [("jsonrpc", .str "2.0"), ("method", .str "initialized"),
                ("params", .obj [])]]⟩
  else if method = "textDocument/inlineCompletion" then
    match result with
    | some (.obj kvs) =>
      if kvs.isEmpty then
        .ok ⟨[.obj [("type", .str "completionResult"), ("id", pid),
                    ("items", .arr [])]], []⟩
      else
        match pyIter (pyGetD kvs "items" (.arr [])) with
        | .error e => .error e
        | .ok raw =>
          match raw.mapM normalizeItem with
          | .error e => .error e
          | .ok items =>
            .ok ⟨[.obj [("type", .str "completionResult"), ("id", pid),
                        ("items", .arr items)]], []⟩
    | _ =>
      .ok ⟨[.obj [("type", .str "completionResult"), ("id", pid),
                  ("items", .arr [])]], []⟩
  else if method = "signIn" then
    match result with
    | some v =>
      if truthyV v then
        match pyAsObj v with
        | .error e => .error e
        | .ok kvs =>
          .ok ⟨[.obj [("type", .str "signInResult"), ("id", pid),
                      ("userCode", pyGetD kvs "userCode" (.str "")),
                      ("verificationUri", pyGetD kvs "verificationUri" (.str "")),
                      ("command", pyGetD kvs "command" .null)]], []⟩
      else
        .ok ⟨[.obj [("type", .str "signInResult"), ("id", pid),
                    ("userCode", .str ""), ("verificationUri", .str "")]], []⟩
    | none =>
      .ok ⟨[.obj [("type", .str "signInResult"), ("id", pid),
                  ("userCode", .str ""), ("verificationUri", .str "")]], []⟩
  else if method = "signOut" then
    .ok ⟨[.obj [("type", .str "signOutResult"), ("id", pid)]], []⟩
  else if method = "workspace/executeCommand" then
    .ok ⟨[.obj [("type", .str "commandResult"), ("id", pid),
                ("result", optJ result)]], []⟩
  else
    .ok ⟨[.obj [("type", .str "lspResponse"), ("id", pid),
                ("method", .str method), ("result", optJ result)]], []⟩

/-- The JSON-RPC error reply of lines 202-203. -/
def methodNotFoundReply (i : JVal) : JVal :=
  .obj [("jsonrpc", .str "2.0"), ("id", i),
        ("error", .obj [("code", .num (-32601)), ("message", .str "Method not found")])]

/-- The notification / server-request part of `handle_lsp_message`
(lines 160-203), reached when the message is not a response. -/
def route_other (msg : List (String × JVal)) (msg_id method : Option JVal) :
    Except PyErr RouterOut :=
  if mEq method "$/logTrace" || mEq method "$/progress" then
    .ok ⟨[], []⟩
  else if mEq method "window/logMessage" then
    match pyAsObj (pyGetD msg "params" (.obj [])) with
    | .error e => .error e
    | .ok _ => .ok ⟨[], []⟩
  else if mEq method "window/showMessage" then
    match pyAsObj (pyGetD msg "params" (.obj [])) with
    | .error e => .error e
    | .ok kvs =>
      .ok ⟨[.obj [("type", .str "showMessage"),
                  ("message", pyGetD kvs "message" (.str "")),
                  ("msgType", pyGetD kvs "type" (.num 3))]], []⟩
  else if mEq method "window/showMessageRequest" then
    match pyAsObj (pyGetD msg "params" (.obj [])) with
    | .error e => .error e
    | .ok kvs =>
      .ok ⟨[.obj [("type", .str "showMessageRequest"),
                  ("id", .str (pyStrO msg_id)),
                  ("message", pyGetD kvs "message" (.str "")),
                  ("msgType", pyGetD kvs "type" (.num 3)),
                  ("actions", pyGetD kvs "actions" (.arr []))]],
           [.obj [("jsonrpc", .str "2.0"), ("id", optJ msg_id), ("result", .null)]]⟩
  else if mEq method "window/showDocument" then
    match pyAsObj (pyGetD msg "params" (.obj [])) with
    | .error e => .error e
    | .ok kvs =>
      .ok ⟨[.obj [("type", .str "showDocument"), ("uri", pyGetD kvs "uri" (.str ""))]],
           [.obj [("jsonrpc", .str "2.0"), ("id", optJ msg_id),
                  ("result", .obj [("success", .bool true)])]]⟩
  else if mEq method "workspace/configuration" then
    match pyAsObj (pyGetD msg "params" (.obj [])) with
    | .error e => .error e
    | .ok kvs =>
      match pyLen (pyGetD kvs "items" (.arr [])) with
      | .error e => .error e
      | .ok n =>
        .ok ⟨[], [.obj [("jsonrpc", .str "2.0"), ("id", optJ msg_id),
                        ("result", .arr (List.replicate n .null))]]⟩
  else if mEq method "copilot/didChangeStatus" || mEq method "didChangeStatus"
      || mEq method "statusNotification" then
    match pyAsObj (pyGetD msg "params" (.obj [])) with
    | .error e => .error e
    | .ok kvs =>
      .ok ⟨[.obj [("type", .str "statusChanged"),
                  ("message", pyGetD kvs "message" (.str "")),
                  ("kind", pyGetD kvs "kind" (.str "Normal"))]], []⟩
  else
    match msg_id with
    | some i => .ok ⟨[], [methodNotFoundReply i]⟩
    | none => .ok ⟨[], []⟩

/-- `handle_lsp_message` (lines 142-203) on an envelope object, relative to
the `pending_requests` registry.  Returns the updated registry (the `pop` on
line 148 happens before anything can raise) and the routed effects or the
escaped exception. -/
def handle_lsp_message (pending : List PendingEntry) (msg : List (String × JVal)) :
    List PendingEntry × Except PyErr RouterOut :=
  let msg_id := pyGet msg "id"
  let method := pyGet msg "method"
  match msg_id, method with
  | some i, none =>
    match pendingLookup pending i with
    | some (pid, reqMethod) =>
      let pending' := pendingErase pending i
      let err := pyGet msg "error"
      if truthyO err then
        (pending', .ok ⟨[.obj [("type", .str "error"), ("id", pid),
                               ("error", optJ err)]], []⟩)
      else
        (pending', dispatch_lsp_response reqMethod pid (pyGet msg "result"))
    | none => (pending, .ok ⟨[], []⟩)
  | mid, m => (pending, route_other msg mid m)

/-! ### Registry lemmas -/

theorem pendingLookup_mem {t : List PendingEntry} {i : JVal} {x : JVal × String}
    (h : pendingLookup t i = some x) : i ∈ t.map (fun e => e.1) := by
  induction t with
  | nil => simp [pendingLookup] at h
  | cons e t ih =>
    obtain ⟨k, pid, meth⟩ := e
    rw [pendingLookup] at h
    by_cases hk : k = i
    · simp [hk]
    · rw [if_neg hk] at h
      simp [ih h]

theorem pendingLookup_erase_of_nodup {t : List PendingEntry} {i : JVal}
    {x : JVal × String} (h : pendingLookup t i = some x)
    (hnd : (t.map (fun e => e.1)).Nodup) :
    pendingLookup (pendingErase t i) i = none := by
  induction t with
  | nil => simp [pendingLookup] at h
  | cons e t ih =>
    obtain ⟨k, pid, meth⟩ := e
    rw [List.map_cons, List.nodup_cons] at hnd
    rw [pendingLookup] at h
    rw [pendingErase]
    by_cases hk : k = i
    · rw [if_pos hk]
      cases hlk : pendingLookup t i with
      | none => rfl
      | some y => exact absurd (hk ▸ pendingLookup_mem hlk) hnd.1
    · rw [if_neg hk] at h
      rw [if_neg hk, pendingLookup, if_neg hk]
      exact ih h hnd.2

/-- Reduction of `handle_lsp_message` on a response with a registered id. -/
theorem handle_response_known {pending : List PendingEntry} {msg : List (String × JVal)}
    {i pid : JVal} {reqMethod : String}
    (hid : pyGet msg "id" = some i) (hm : pyGet msg "method" = none)
    (hlk : pendingLookup pending i = some (pid, reqMethod)) :
    handle_lsp_message pending msg =
      (pendingErase pending i,
       if truthyO (pyGet msg "error") then
         .ok ⟨[.obj [("type", .str "error"), ("id", pid),
                     ("error", optJ (pyGet msg "error"))]], []⟩
       else dispatch_lsp_response reqMethod pid (pyGet msg "result")) := by
  simp only [handle_lsp_message, hid, hm, hlk]
  by_cases hc : truthyO (pyGet msg "error") = true
  · simp [hc]
  · simp [hc]

/-- Reduction of `handle_lsp_message` on a response with an unknown id. -/
theorem handle_response_unknown {pending : List PendingEntry} {msg : List (String × JVal)}
    {i : JVal} (hid : pyGet msg "id" = some i) (hm : pyGet msg "method" = none)
    (hlk : pendingLookup pending i = none) :
    handle_lsp_message pending msg = (pending, .ok ⟨[], []⟩) := by
  simp only [handle_lsp_message, hid, hm, hlk]

/-- Reduction of `handle_lsp_message` on a message that carries a `method`. -/
theorem handle_other_eq {pending : List PendingEntry} {msg : List (String × JVal)}
    {m : JVal} (hm : pyGet msg "method" = some m) :
    handle_lsp_message pending msg = (pending, route_other msg (pyGet msg "id") (some m)) := by
  cases hid : pyGet msg "id" with
  | none => simp only [handle_lsp_message, hid, hm]
  | some i => simp only [handle_lsp_message, hid, hm]

/-- C2.  A response whose id is registered resolves the registry entry
exactly once: the entry is removed and the response is translated (error
event or per-method success translation); with the registry keys unique (as
Python dict keys are), the erased entry is gone, so a second response with
the same id — like any response whose id is not registered — is discarded
with no exception raised, no event, no reply, and no registry change. -/
theorem c2_registry_resolve_once (pending : List PendingEntry)
    (msg : List (String × JVal)) (i : JVal)
    (hid : pyGet msg "id" = some i) (hm : pyGet msg "method" = none) :
    (pendingLookup pending i = none →
       handle_lsp_message pending msg = (pending, .ok ⟨[], []⟩))
    ∧ (∀ pid reqMethod, pendingLookup pending i = some (pid, reqMethod) →
       handle_lsp_message pending msg
         = (pendingErase pending i,
            if truthyO (pyGet msg "error") then
              .ok ⟨[.obj [("type", .str "error"), ("id", pid),
                          ("error", optJ (pyGet msg "error"))]], []⟩
            else dispatch_lsp_response reqMethod pid (pyGet msg "result"))
       ∧ ((pending.map (fun e => e.1)).Nodup →
           pendingLookup (pendingErase pending i) i = none
           ∧ ∀ msg2 : List (String × JVal), pyGet msg2 "id" = some i →
               pyGet msg2 "method" = none →
               handle_lsp_message (pendingErase pending i) msg2
                 = (pendingErase pending i, .ok ⟨[], []⟩))) := by
  constructor
  · intro hnone
    exact handle_response_unknown hid hm hnone
  · intro pid reqMethod hsome
    refine ⟨handle_response_known hid hm hsome, ?_⟩
    intro hnd
    have h1 : pendingLookup (pendingErase pending i) i = none :=
      pendingLookup_erase_of_nodup hsome hnd
    exact ⟨h1, fun msg2 hid2 hm2 => handle_response_unknown hid2 hm2 h1⟩

theorem c2_registry_resolve_once_witness :
    (pyGet [("id", .num 5)] "id" = some (.num 5)
      ∧ pyGet [("id", .num 5)] "method" = none)
    ∧ pendingLookup [(JVal.num 4, JVal.str "h1", "signOut")] (.num 5) = none
    ∧ handle_lsp_message [(JVal.num 4, JVal.str "h1", "signOut")] [("id", .num 5)]
        = ([(JVal.num 4, JVal.str "h1", "signOut")], .ok ⟨[], []⟩)
    ∧ pendingLookup [(JVal.num 4, JVal.str "h1", "signOut")] (.num 4)
        = some (JVal.str "h1", "signOut")
    ∧ handle_lsp_message [(JVal.num 4, JVal.str "h1", "signOut")] [("id", .num 4)]
        = ([], if truthyO (pyGet [("id", JVal.num 4)] "error") then
                 .ok ⟨[.obj [("type", .str "error"), ("id", .str "h1"),
                             ("error", optJ (pyGet [("id", JVal.num 4)] "error"))]], []⟩
               else dispatch_lsp_response "signOut" (.str "h1")
                      (pyGet [("id", JVal.num 4)] "result"))
    ∧ pendingLookup (pendingErase [(JVal.num 4, JVal.str "h1", "signOut")] (.num 4))
        (.num 4) = none
    ∧ handle_lsp_message (pendingErase [(JVal.num 4, JVal.str "h1", "signOut")] (.num 4))
        [("id", .num 4)]
        = (pendingErase [(JVal.num 4, JVal.str "h1", "signOut")] (.num 4), .ok ⟨[], []⟩) := by
  refine ⟨⟨rfl, rfl⟩, rfl, ?_, rfl, ?_, ?_, ?_⟩
  · exact (c2_registry_resolve_once [(JVal.num 4, JVal.str "h1", "signOut")]
      [("id", JVal.num 5)] (JVal.num 5) rfl rfl).1 rfl
  · exact ((c2_registry_resolve_once [(JVal.num 4, JVal.str "h1", "signOut")]
      [("id", JVal.num 4)] (JVal.num 4) rfl rfl).2 (JVal.str "h1") "signOut" rfl).1
  · exact (((c2_registry_resolve_once [(JVal.num 4, JVal.str "h1", "signOut")]
      [("id", JVal.num 4)] (JVal.num 4) rfl rfl).2 (JVal.str "h1") "signOut" rfl).2
      (by decide)).1
  · exact ((((c2_registry_resolve_once [(JVal.num 4, JVal.str "h1", "signOut")]
      [("id", JVal.num 4)] (JVal.num 4) rfl rfl).2 (JVal.str "h1") "signOut" rfl).2
      (by decide)).2 [("id", JVal.num 4)] rfl rfl)

/-- C10.  A registered response carrying a truthy `error` field emits exactly
one `error` event with the host correlation id and the error payload, sends
nothing to the subprocess, suppresses the per-method success translation,
and still removes the registry entry; with unique keys a later response with
the same id finds nothing and is discarded. -/
theorem c10_error_response_translation (pending : List PendingEntry)
    (msg : List (String × JVal)) (i pid : JVal) (reqMethod : String) (e : JVal)
    (hlk : pendingLookup pending i = some (pid, reqMethod))
    (hid : pyGet msg "id" = some i) (hm : pyGet msg "method" = none)
    (herr : pyGet msg "error" = some e) (htru : truthyV e = true) :
    handle_lsp_message pending msg
      = (pendingErase pending i,
         .ok ⟨[.obj [("type", .str "error"), ("id", pid), ("error", e)]], []⟩)
    ∧ ((pending.map (fun x => x.1)).Nodup →
        pendingLookup (pendingErase pending i) i = none
        ∧ ∀ msg2 : List (String × JVal), pyGet msg2 "id" = some i →
            pyGet msg2 "method" = none →
            handle_lsp_message (pendingErase pending i) msg2
              = (pendingErase pending i, .ok ⟨[], []⟩)) := by
  have htr : truthyO (pyGet msg "error") = true := by rw [herr]; exact htru
  constructor
  · rw [handle_response_known hid hm hlk, if_pos htr, herr]
    rfl
  · intro hnd
    have h1 : pendingLookup (pendingErase pending i) i = none :=
      pendingLookup_erase_of_nodup hlk hnd
    exact ⟨h1, fun msg2 hid2 hm2 => handle_response_unknown hid2 hm2 h1⟩

theorem c10_error_response_translation_witness :
    pendingLookup [(JVal.num 9, JVal.str "r7", "signIn")] (.num 9)
        = some (JVal.str "r7", "signIn")
    ∧ pyGet [("id", .num 9), ("error", .obj [("code", .num (-32000))])] "id" = some (.num 9)
    ∧ pyGet [("id", .num 9), ("error", .obj [("code", .num (-32000))])] "method" = none
    ∧ pyGet [("id", .num 9), ("error", .obj [("code", .num (-32000))])] "error"
        = some (.obj [("code", .num (-32000))])
    ∧ truthyV (.obj [("code", .num (-32000))]) = true
    ∧ handle_lsp_message [(JVal.num 9, JVal.str "r7", "signIn")]
        [("id", .num 9), ("error", .obj [("code", .num (-32000))])]
        = ([], .ok ⟨[.obj [("type", .str "error"), ("id", .str "r7"),
                           ("error", .obj [("code", .num (-32000))])]], []⟩) :=
  ⟨rfl, rfl, rfl, rfl, rfl,
   (c10_error_response_translation [(JVal.num 9, JVal.str "r7", "signIn")]
      [("id", JVal.num 9), ("error", JVal.obj [("code", JVal.num (-32000))])]
      (JVal.num 9) (JVal.str "r7") "signIn"
      (JVal.obj [("code", JVal.num (-32000))]) rfl rfl rfl rfl rfl).1⟩

/-- The method-comparison chain of lines 161-198 (every recognized name). -/
def recognizedMethod (method : Option JVal) : Bool :=
  mEq method "$/logTrace" || mEq method "$/progress"
    || mEq method "window/logMessage" || mEq method "window/showMessage"
    || mEq method "window/showMessageRequest" || mEq method "window/showDocument"
    || mEq method "workspace/configuration" || mEq method "copilot/didChangeStatus"
    || mEq method "didChangeStatus" || mEq method "statusNotification"

/-- C5.  A decoded message with an unrecognized method: with an id (a server
request) it is answered with exactly one `-32601` "Method not found" error
reply to the subprocess — and nothing else: no event, no exception; without
an id (a notification) nothing is sent at all.  The registry is untouched
in both cases. -/
theorem c5_unrecognized_method (pending : List PendingEntry)
    (msg : List (String × JVal)) (m : JVal)
    (hm : pyGet msg "method" = some m)
    (hunrec : recognizedMethod (some m) = false) :
    (∀ i, pyGet msg "id" = some i →
       handle_lsp_message pending msg = (pending, .ok ⟨[], [methodNotFoundReply i]⟩))
    ∧ (pyGet msg "id" = none →
       handle_lsp_message pending msg = (pending, .ok ⟨[], []⟩)) := by
  simp only [recognizedMethod, Bool.or_eq_false_iff] at hunrec
  obtain ⟨⟨⟨⟨⟨⟨⟨⟨⟨h1, h2⟩, h3⟩, h4⟩, h5⟩, h6⟩, h7⟩, h8⟩, h9⟩, h10⟩ := hunrec
  have hroute : ∀ mid, route_other msg mid (some m) =
      (match mid with
       | some i => .ok ⟨[], [methodNotFoundReply i]⟩
       | none => .ok ⟨[], []⟩) := by
    intro mid
    simp only [route_other, h1, h2, h3, h4, h5, h6, h7, h8, h9, h10]
    rfl
  constructor
  · intro i hid
    rw [handle_other_eq hm, hid, hroute]
  · intro hid
    rw [handle_other_eq hm, hid, hroute]

theorem c5_unrecognized_method_witness :
    (pyGet [("method", .str "copilot/openPanel"), ("id", .num 3)] "method"
        = some (.str "copilot/openPanel")
      ∧ recognizedMethod (some (.str "copilot/openPanel")) = false)
    ∧ pyGet [("method", .str "copilot/openPanel"), ("id", .num 3)] "id" = some (.num 3)
    ∧ handle_lsp_message [] [("method", .str "copilot/openPanel"), ("id", .num 3)]
        = ([], .ok ⟨[], [methodNotFoundReply (.num 3)]⟩)
    ∧ pyGet [("method", .str "copilot/openPanel")] "id" = none
    ∧ handle_lsp_message [] [("method", .str "copilot/openPanel")]
        = ([], .ok ⟨[], []⟩) := by
  refine ⟨⟨rfl, rfl⟩, rfl, ?_, rfl, ?_⟩
  · exact (c5_unrecognized_method [] [("method", JVal.str "copilot/openPanel"), ("id", JVal.num 3)]
      (JVal.str "copilot/openPanel") rfl rfl).1 (JVal.num 3) rfl
  · exact (c5_unrecognized_method [] [("method", JVal.str "copilot/openPanel")]
      (JVal.str "copilot/openPanel") rfl rfl).2 rfl

/-- C4 counterexample: a decoded `workspace/configuration` server request
(method and id both present).  The bridge sends the synthetic `[null] * len(items)`
reply but writes NO host-facing event: the events list is empty, refuting the
claim that such a request produces both an event and a reply. -/
theorem c4_counterexample :
    (handle_lsp_message [] [("id", .num 7), ("method", .str "workspace/configuration"),
        ("params", .obj [("items", .arr [.null, .null])])]).2
      = .ok ⟨[], [.obj [("jsonrpc", .str "2.0"), ("id", .num 7),
                        ("result", .arr [.null, .null])]]⟩
    ∧ ∀ out : RouterOut,
        (handle_lsp_message [] [("id", .num 7), ("method", .str "workspace/configuration"),
            ("params", .obj [("items", .arr [.null, .null])])]).2 = .ok out →
        out.events = [] := by
  have hval : (handle_lsp_message [] [("id", .num 7),
      ("method", .str "workspace/configuration"),
      ("params", .obj [("items", .arr [.null, .null])])]).2
      = Except.ok (⟨[], [.obj [("jsonrpc", .str "2.0"), ("id", .num 7),
                        ("result", .arr [.null, .null])]]⟩ : RouterOut) := rfl
  refine ⟨hval, fun out h => ?_⟩
  have h2 := Except.ok.inj (hval.symm.trans h)
  rw [← h2]

theorem route_other_configuration (msg : List (String × JVal)) (mid : Option JVal)
    (kvs : List (String × JVal)) (l : List JVal)
    (hp : pyGetD msg "params" (.obj []) = .obj kvs)
    (hitems : pyGetD kvs "items" (.arr []) = .arr l) :
    route_other msg mid (some (.str "workspace/configuration"))
      = .ok ⟨[], [.obj [("jsonrpc", .str "2.0"), ("id", optJ mid),
                        ("result", .arr (List.replicate l.length .null))]]⟩ := by
  have e1 : mEq (some (JVal.str "workspace/configuration")) "$/logTrace" = false := by decide
  have e2 : mEq (some (JVal.str "workspace/configuration")) "$/progress" = false := by decide
  have e3 : mEq (some (JVal.str "workspace/configuration")) "window/logMessage" = false := by
    decide
  have e4 : mEq (some (JVal.str "workspace/configuration")) "window/showMessage" = false := by
    decide
  have e5 : mEq (some (JVal.str "workspace/configuration")) "window/showMessageRequest"
      = false := by decide
  have e6 : mEq (some (JVal.str "workspace/configuration")) "window/showDocument"
      = false := by decide
  have e7 : mEq (some (JVal.str "workspace/configuration")) "workspace/configuration"
      = true := by decide
  simp only [route_other, e1, e2, e3, e4, e5, e6, e7, Bool.or_self, Bool.false_eq_true,
    if_false, if_true, hp, pyAsObj, hitems, pyLen]

/-- C4 amended.  A decoded server-initiated `workspace/configuration` request
(method and id both present, its params items a list) makes the bridge send
exactly one immediate synthetic reply `{"jsonrpc":"2.0","id":<id>,"result":[null]*len(items)}`
back into the subprocess stream — so the subprocess is never left blocked —
but it produces NO host-facing event on the response log; the registry is
untouched. -/
theorem c4_configuration_reply_no_event (pending : List PendingEntry)
    (msg : List (String × JVal)) (i : JVal)
    (kvs : List (String × JVal)) (l : List JVal)
    (hid : pyGet msg "id" = some i)
    (hm : pyGet msg "method" = some (.str "workspace/configuration"))
    (hp : pyGetD msg "params" (.obj []) = .obj kvs)
    (hitems : pyGetD kvs "items" (.arr []) = .arr l) :
    handle_lsp_message pending msg
      = (pending, .ok ⟨[], [.obj [("jsonrpc", .str "2.0"), ("id", i),
                                  ("result", .arr (List.replicate l.length .null))]]⟩) := by
  rw [handle_other_eq hm, hid, route_other_configuration msg (some i) kvs l hp hitems]
  rfl

theorem c4_configuration_reply_no_event_witness :
    (pyGet [("id", .num 7), ("method", .str "workspace/configuration"),
        ("params", .obj [("items", .arr [.null, .null])])] "id" = some (.num 7)
      ∧ pyGet [("id", .num 7), ("method", .str "workspace/configuration"),
          ("params", .obj [("items", .arr [.null, .null])])] "method"
        = some (.str "workspace/configuration"))
    ∧ handle_lsp_message [] [("id", .num 7), ("method", .str "workspace/configuration"),
        ("params", .obj [("items", .arr [.null, .null])])]
      = ([], .ok ⟨[], [.obj [("jsonrpc", .str "2.0"), ("id", .num 7),
                             ("result", .arr (List.replicate 2 JVal.null))]]⟩) :=
  ⟨⟨rfl, rfl⟩,
   c4_configuration_reply_no_event [] [("id", .num 7),
      ("method", .str "workspace/configuration"),
      ("params", .obj [("items", .arr [.null, .null])])]
      (.num 7) [("items", .arr [.null, .null])] [.null, .null] rfl rfl rfl rfl⟩

/-- Reduction of the `textDocument/inlineCompletion` success translation. -/
theorem dispatch_inlineCompletion_items (pid : JVal) (kvs : List (String × JVal))
    (l items : List JVal)
    (hne : kvs.isEmpty = false)
    (hitems : pyGetD kvs "items" (.arr []) = .arr l)
    (hmap : l.mapM normalizeItem = .ok items) :
    dispatch_lsp_response "textDocument/inlineCompletion" pid (some (.obj kvs))
      = .ok ⟨[.obj [("type", .str "completionResult"), ("id", pid),
                    ("items", .arr items)]], []⟩ := by
  have d1 : ("textDocument/inlineCompletion" = "initialize") = False := by
    simp only [eq_iff_iff, iff_false]
    decide
  simp only [dispatch_lsp_response, d1, if_false, if_true, hne, Bool.false_eq_true, hitems,
    pyIter, hmap]

theorem dispatch_inlineCompletion_noresult (pid : JVal) :
    dispatch_lsp_response "textDocument/inlineCompletion" pid none
      = .ok ⟨[.obj [("type", .str "completionResult"), ("id", pid),
                    ("items", .arr [])]], []⟩ := by
  have d1 : ("textDocument/inlineCompletion" = "initialize") = False := by
    simp only [eq_iff_iff, iff_false]
    decide
  simp only [dispatch_lsp_response, d1, if_false, if_true]

/-- C9.  A non-error response to a registered `textDocument/inlineCompletion`
request emits exactly one `completionResult` event carrying the host
correlation id: when the result is a non-empty dict whose `items` is a list
of dict items, the event carries one normalized `{insertText, range, command}`
entry per item (insertText defaulting to `""`, the others to `null`); when
the result is absent, the event carries an empty item list.  The registry
entry is removed either way. -/
theorem c9_completion_result (pending : List PendingEntry)
    (msg : List (String × JVal)) (i pid : JVal)
    (hlk : pendingLookup pending i = some (pid, "textDocument/inlineCompletion"))
    (hid : pyGet msg "id" = some i) (hm : pyGet msg "method" = none)
    (herr : truthyO (pyGet msg "error") = false) :
    (∀ (kvs : List (String × JVal)) (l items : List JVal),
       pyGet msg "result" = some (.obj kvs) → kvs.isEmpty = false →
       pyGetD kvs "items" (.arr []) = .arr l →
       l.mapM normalizeItem = .ok items →
       handle_lsp_message pending msg
         = (pendingErase pending i,
            .ok ⟨[.obj [("type", .str "completionResult"), ("id", pid),
                        ("items", .arr items)]], []⟩))
    ∧ (pyGet msg "result" = none →
       handle_lsp_message pending msg
         = (pendingErase pending i,
            .ok ⟨[.obj [("type", .str "completionResult"), ("id", pid),
                        ("items", .arr [])]], []⟩)) := by
  have hnotr : ¬ (truthyO (pyGet msg "error") = true) := by
    rw [herr]; exact Bool.false_ne_true
  constructor
  · intro kvs l items hres hne hitems hmap
    rw [handle_response_known hid hm hlk, if_neg hnotr, hres,
        dispatch_inlineCompletion_items pid kvs l items hne hitems hmap]
  · intro hres
    rw [handle_response_known hid hm hlk, if_neg hnotr, hres,
        dispatch_inlineCompletion_noresult pid]

theorem c9_completion_result_witness :
    (pendingLookup [(JVal.num 2, JVal.str "r1", "textDocument/inlineCompletion")] (.num 2)
        = some (JVal.str "r1", "textDocument/inlineCompletion")
      ∧ truthyO (pyGet [("id", .num 2), ("result", .obj [("items",
          .arr [.obj [("insertText", .str "foo"), ("range", .null)],
                .obj [("command", .str "c")]])])] "error") = false)
    ∧ ([JVal.obj [("insertText", .str "foo"), ("range", .null)],
        JVal.obj [("command", .str "c")]].mapM normalizeItem
       = .ok [.obj [("insertText", .str "foo"), ("range", .null), ("command", .null)],
              .obj [("insertText", .str ""), ("range", .null), ("command", .str "c")]])
    ∧ handle_lsp_message [(JVal.num 2, JVal.str "r1", "textDocument/inlineCompletion")]
        [("id", .num 2), ("result", .obj [("items",
          .arr [.obj [("insertText", .str "foo"), ("range", .null)],
                .obj [("command", .str "c")]])])]
        = ([], .ok ⟨[.obj [("type", .str "completionResult"), ("id", .str "r1"),
            ("items", .arr [.obj [("insertText", .str "foo"), ("range", .null),
                                  ("command", .null)],
                            .obj [("insertText", .str ""), ("range", .null),
                                  ("command", .str "c")]])]], []⟩)
    ∧ handle_lsp_message [(JVal.num 2, JVal.str "r1", "textDocument/inlineCompletion")]
        [("id", .num 2)]
        = ([], .ok ⟨[.obj [("type", .str "completionResult"), ("id", .str "r1"),
                           ("items", .arr [])]], []⟩) := by
  refine ⟨⟨rfl, rfl⟩, rfl, ?_, ?_⟩
  · exact (c9_completion_result [(JVal.num 2, JVal.str "r1", "textDocument/inlineCompletion")]
      [("id", JVal.num 2), ("result", JVal.obj [("items",
        JVal.arr [JVal.obj [("insertText", JVal.str "foo"), ("range", JVal.null)],
                  JVal.obj [("command", JVal.str "c")]])])]
      (JVal.num 2) (JVal.str "r1") rfl rfl rfl rfl).1
      [("items", JVal.arr [JVal.obj [("insertText", JVal.str "foo"), ("range", JVal.null)],
                           JVal.obj [("command", JVal.str "c")]])]
      [JVal.obj [("insertText", JVal.str "foo"), ("range", JVal.null)],
       JVal.obj [("command", JVal.str "c")]]
      [JVal.obj [("insertText", JVal.str "foo"), ("range", JVal.null), ("command", JVal.null)],
       JVal.obj [("insertText", JVal.str ""), ("range", JVal.null), ("command", JVal.str "c")]]
      rfl rfl rfl rfl
  · exact (c9_completion_result [(JVal.num 2, JVal.str "r1", "textDocument/inlineCompletion")]
      [("id", JVal.num 2)] (JVal.num 2) (JVal.str "r1") rfl rfl rfl rfl).2 rfl

/-! ### The host-command dispatcher (`handle_plugin_message`) -/

/-- Mutable bridge state touched by the command path: the `request_counter`,
the `pending_requests` registry, and the process id used by `initialize`. -/
structure BridgeSt where
  counter : Nat
  pending : List PendingEntry
  pid : Nat
  deriving DecidableEq

/-- `lsp_notify`'s payload (line 92). -/
def jnotif (method : String) (params : JVal) : JVal :=
  .obj [("jsonrpc", .str "2.0"), ("method", .str method), ("params", params)]

/-- `lsp_request` (lines 83-88): allocate the next id, register the
correlation when the host supplied a request id, and send the frame. -/
def lsp_request (st : BridgeSt) (method : String) (params : JVal)
    (pluginReqId : Option JVal) : BridgeSt × JVal :=
  let lspId : Int := st.counter + 1
  ({ st with
     counter := st.counter + 1,
     pending := match pluginReqId with
       | some r => st.pending ++ [(JVal.num lspId, r, method)]
       | none => st.pending },
   .obj [("jsonrpc", .str "2.0"), ("id", .num lspId), ("method", .str method),
         ("params", params)])

/-- `handle_plugin_message` (lines 248-353).  A non-dict value raises
`AttributeError` at `msg.get("type")`; `msg["..."]` raises `KeyError` when a
required field is absent. -/
def handle_plugin_message (st : BridgeSt) (v : JVal) : BridgeSt × Except PyErr RouterOut :=
  match v with
  | .obj msg =>
    let msgType := pyGet msg "type"
    let reqId := pyGet msg "id"
    if mEq msgType "initialize" then
      match pyIter (pyGetD msg "workspaceFolders" (.arr [])) with
      | .error e => (st, .error e)
      | .ok ws =>
        let folders := ws.map (fun w => JVal.obj [("uri", JVal.str ("file://" ++ pyStr w))])
        let params : JVal := .obj [
          ("processId", .num st.pid),
          ("clientInfo", .obj [("name", .str "Fresh"), ("version", .str "1.0.0")]),
          ("workspaceFolders", .arr folders),
          ("capabilities", .obj [
            ("workspace", .obj [("workspaceFolders", .bool true),
                               ("configuration", .bool true)]),
            ("textDocument", .obj [
              ("synchronization", .obj [("dynamicRegistration", .bool true),
                                        ("didSave", .bool true)]),
              ("inlineCompletion", .obj [("dynamicRegistration", .bool true)]),
              ("inlayHint", .obj [("dynamicRegistration", .bool true)])])]),
          ("initializationOptions", .obj [
            ("editorInfo", .obj [("name", .str "Fresh"), ("version", .str "1.0.0")]),
            ("editorPluginInfo", .obj [("name", .str "GitHub Copilot for Fresh"),
                                       ("version", .str "1.0.0")])])]
        let res := lsp_request st "initialize" params reqId
        (res.1, .ok ⟨[], [res.2]⟩)
    else if mEq msgType "configuration" then
      (st, .ok ⟨[], [jnotif "workspace/didChangeConfiguration"
        (.obj [("settings", pyGetD msg "settings" (.obj []))])]⟩)
    else if mEq msgType "openDocument" then
      match pyIndex msg "uri" with
      | .error e => (st, .error e)
      | .ok uri =>
        (st, .ok ⟨[], [jnotif "textDocument/didOpen" (.obj [("textDocument", .obj [
          ("uri", uri),
          ("languageId", pyGetD msg "languageId" (.str "plaintext")),
          ("version", pyGetD msg "version" (.num 1)),
          ("text", pyGetD msg "text" (.str ""))])])]⟩)
    else if mEq msgType "changeDocument" then
      match pyIndex msg "uri" with
      | .error e => (st, .error e)
      | .ok uri =>
        (st, .ok ⟨[], [jnotif "textDocument/didChange" (.obj [
          ("textDocument", .obj [("uri", uri), ("version", pyGetD msg "version" (.num 1))]),
          ("contentChanges", pyGetD msg "changes" (.arr []))])]⟩)
    else if mEq msgType "closeDocument" then
      match pyIndex msg "uri" with
      | .error e => (st, .error e)
      | .ok uri =>
        (st, .ok ⟨[], [jnotif "textDocument/didClose"
          (.obj [("textDocument", .obj [("uri", uri)])])]⟩)
    else if mEq msgType "focusDocument" then
      let uri := pyGet msg "uri"
      if truthyO uri then
        (st, .ok ⟨[], [jnotif "textDocument/didFocus"
          (.obj [("textDocument", .obj [("uri", optJ uri)])])]⟩)
      else
        (st, .ok ⟨[], [jnotif "textDocument/didFocus" (.obj [])]⟩)
    else if mEq msgType "inlineCompletion" then
      match pyIndex msg "uri" with
      | .error e => (st, .error e)
      | .ok uri =>
        match pyIndex msg "position" with
        | .error e => (st, .error e)
        | .ok posn =>
          let params : JVal := .obj [
            ("textDocument", .obj [("uri", uri),
                                   ("version", pyGetD msg "version" (.num 0))]),
            ("position", posn),
            ("context", .obj [("triggerKind", pyGetD msg "triggerKind" (.num 2))]),
            ("formattingOptions", pyGetD msg "formattingOptions"
              (.obj [("tabSize", .num 4), ("insertSpaces", .bool true)]))]
          let res := lsp_request st "textDocument/inlineCompletion" params reqId
          (res.1, .ok ⟨[], [res.2]⟩)
    else if mEq msgType "signIn" then
      let res := lsp_request st "signIn" (.obj []) reqId
      (res.1, .ok ⟨[], [res.2]⟩)
    else if mEq msgType "signOut" then
      let res := lsp_request st "signOut" (.obj []) reqId
      (res.1, .ok ⟨[], [res.2]⟩)
    else if mEq msgType "executeCommand" then
      match pyIndex msg "command" with
      | .error e => (st, .error e)
      | .ok cmd =>
        let res := lsp_request st "workspace/executeCommand"
          (.obj [("command", cmd), ("arguments", pyGetD msg "arguments" (.arr []))]) reqId
        (res.1, .ok ⟨[], [res.2]⟩)
    else if mEq msgType "didAcceptCompletion" then
      let cmd := pyGet msg "command"
      if truthyO cmd then
        match pyAsObj (optJ cmd) with
        | .error e => (st, .error e)
        | .ok ckvs =>
          (st, .ok ⟨[], [jnotif "workspace/executeCommand" (.obj [
            ("command", optJ (pyGet ckvs "command")),
            ("arguments", pyGetD ckvs "arguments" (.arr []))])]⟩)
      else (st, .ok ⟨[], []⟩)
    else if mEq msgType "didShowCompletion" then
      (st, .ok ⟨[], [jnotif "textDocument/didShowCompletion"
        (.obj [("item", pyGetD msg "item" (.obj []))])]⟩)
    else (st, .ok ⟨[], []⟩)
  | _ => (st, .error .other)

/-! ### `json.loads` on a command-log line, and the watcher poll -/

/-- JSON whitespace accepted by `json.loads`. -/
def jWs (c : Char) : Bool := c = ' ' || c = '\t' || c = '\n' || c = '\r'

/-- String-literal body: plain characters and the simple escapes.  (The
`\uXXXX` form and numeric fraction/exponent forms of full JSON are not needed
by any command and are rejected rather than modelled.) -/
def parseStrLit : List Char → List Char → Except Unit (String × List Char)
  | _, [] => .error ()
  | acc, c :: t =>
    if c = Char.ofNat 34 then .ok (String.mk acc.reverse, t)
    else if c = Char.ofNat 92 then
      match t with
      | [] => .error ()
      | e :: t2 =>
        if e = Char.ofNat 34 then parseStrLit (Char.ofNat 34 :: acc) t2
        else if e = Char.ofNat 92 then parseStrLit (Char.ofNat 92 :: acc) t2
        else if e = '/' then parseStrLit ('/' :: acc) t2
        else if e = 'n' then parseStrLit ('\n' :: acc) t2
        else if e = 't' then parseStrLit ('\t' :: acc) t2
        else if e = 'r' then parseStrLit ('\r' :: acc) t2
        else if e = 'b' then parseStrLit (Char.ofNat 8 :: acc) t2
        else if e = 'f' then parseStrLit (Char.ofNat 12 :: acc) t2
        else .error ()
    else parseStrLit (c :: acc) t

def digitsToNat (l : List Char) : Nat :=
  l.foldl (fun a c => 10 * a + (c.toNat - 48)) 0

/-- `dict` construction: a repeated key overwrites in place, as in Python. -/
def objInsert (acc : List (String × JVal)) (k : String) (v : JVal) :
    List (String × JVal) :=
  if acc.any (fun p => p.1 = k) then
    acc.map (fun p => if p.1 = k then (k, v) else p)
  else acc ++ [(k, v)]

/-- Parser jobs: a value, the rest of an array, the rest of an object. -/
inductive PJob where
  | val
  | arrTail (acc : List JVal)
  | objTail (acc : List (String × JVal))

/-- Recursive-descent core of `json.loads`, fuelled for kernel
computability. -/
def parseCore : Nat → PJob → List Char → Except Unit (JVal × List Char)
  | 0, _, _ => .error ()
  | f + 1, .val, cs =>
    match cs.dropWhile jWs with
    | [] => .error ()
    | c :: rest =>
      if c = Char.ofNat 123 then
        match rest.dropWhile jWs with
        | [] => .error ()
        | d :: r3 =>
          if d = Char.ofNat 125 then .ok (.obj [], r3)
          else parseCore f (.objTail []) (d :: r3)
      else if c = '[' then
        match rest.dropWhile jWs with
        | [] => .error ()
        | d :: r3 =>
          if d = ']' then .ok (.arr [], r3)
          else parseCore f (.arrTail []) (d :: r3)
      else if c = Char.ofNat 34 then
        match parseStrLit [] rest with
        | .error e => .error e
        | .ok (s, r) => .ok (.str s, r)
      else if ['t', 'r', 'u', 'e'].isPrefixOf (c :: rest) then
        .ok (.bool true, (c :: rest).drop 4)
      else if ['f', 'a', 'l', 's', 'e'].isPrefixOf (c :: rest) then
        .ok (.bool false, (c :: rest).drop 5)
      else if ['n', 'u', 'l', 'l'].isPrefixOf (c :: rest) then
        .ok (.null, (c :: rest).drop 4)
      else if c = '-' then
        let ds := rest.takeWhile Char.isDigit
        if ds.isEmpty then .error ()
        else .ok (.num (-(digitsToNat ds : Int)), rest.drop ds.length)
      else if c.isDigit then
        let ds := (c :: rest).takeWhile Char.isDigit
        .ok (.num (digitsToNat ds), (c :: rest).drop ds.length)
      else .error ()
  | f + 1, .arrTail acc, cs =>
    match parseCore f .val cs with
    | .error e => .error e
    | .ok (v, r) =>
      match r.dropWhile jWs with
      | ',' :: r2 => parseCore f (.arrTail (acc ++ [v])) r2
      | ']' :: r2 => .ok (.arr (acc ++ [v]), r2)
      | _ => .error ()
  | f + 1, .objTail acc, cs =>
    match cs.dropWhile jWs with
    | c :: rest =>
      if c = Char.ofNat 34 then
        match parseStrLit [] rest with
        | .error e => .error e
        | .ok (k, r) =>
          match r.dropWhile jWs with
          | ':' :: r2 =>
            match parseCore f .val r2 with
            | .error e => .error e
            | .ok (v, r3) =>
              match r3.dropWhile jWs with
              | ',' :: r4 => parseCore f (.objTail (objInsert acc k v)) r4
              | c2 :: r4 =>
                if c2 = Char.ofNat 125 then .ok (.obj (objInsert acc k v), r4)
                else .error ()
              | [] => .error ()
          | _ => .error ()
      else .error ()
    | [] => .error ()

/-- `json.loads(line)`: parse one value, then only whitespace may remain. -/
def parseJson (line : List Char) : Except Unit JVal :=
  match parseCore (2 * line.length + 2) .val line with
  | .error e => .error e
  | .ok (v, rest) => if (rest.dropWhile jWs).isEmpty then .ok v else .error ()

/-- The whitespace set of Python `str.strip()` (ASCII fragment). -/
def pyWs (c : Char) : Bool :=
  c = ' ' || c = '\t' || c = '\n' || c = '\r' || c = Char.ofNat 11 || c = Char.ofNat 12

def stripChars (l : List Char) : List Char :=
  ((l.dropWhile pyWs).reverse.dropWhile pyWs).reverse

/-- `new_data.strip().split("\n")` — split at every newline. -/
def splitNl : List Char → List (List Char)
  | [] => [[]]
  | c :: t =>
    if c = '\n' then [] :: splitNl t
    else
      match splitNl t with
      | [] => [[c]]
      | h :: r => (c :: h) :: r

/-- Outcome of one poll's line-processing loop: the commands handed to the
dispatcher (successfully or with a caught `KeyError`), and whether an
uncaught exception escaped the loop — killing the watcher thread. -/
structure WatchOut where
  handled : List JVal
  crashed : Bool
  deriving DecidableEq

/-- Lines 379-384: each non-blank line is parsed; `json.JSONDecodeError` and
`KeyError` are caught and the line is skipped; any other exception escapes
and ends processing. -/
def processLines (st : BridgeSt) : List (List Char) → BridgeSt × WatchOut
  | [] => (st, ⟨[], false⟩)
  | line :: rest =>
    if (stripChars line).isEmpty then processLines st rest
    else
      match parseJson line with
      | .error _ => processLines st rest
      | .ok v =>
        match handle_plugin_message st v with
        | (st2, .ok _) =>
          match processLines st2 rest with
          | (st3, out) => (st3, ⟨v :: out.handled, out.crashed⟩)
        | (st2, .error .key) =>
          match processLines st2 rest with
          | (st3, out) => (st3, ⟨v :: out.handled, out.crashed⟩)
        | (st2, .error .other) => (st2, ⟨[], true⟩)

/-- One iteration of `cmd_file_watcher`'s poll loop (lines 362-384), as a
function of the file's current contents (`none` when the file does not
exist).  The read offset is updated by `f.tell()` before any line is
processed; on `size < last_pos` the offset resets to zero and nothing is
delivered. -/
def watcherPoll (st : BridgeSt) (file : Option (List Char)) (pos : Nat) :
    BridgeSt × Nat × WatchOut :=
  match file with
  | none => (st, pos, ⟨[], false⟩)
  | some s =>
    let newData := s.drop pos
    if newData.isEmpty then
      (st, if s.length < pos then 0 else pos, ⟨[], false⟩)
    else
      match processLines st (splitNl (stripChars newData)) with
      | (st2, out) => (st2, s.length, out)

/-- C6.  Offset discipline of the command-log watcher: when a poll observes
a file size strictly smaller than the last consumed offset (external
truncation), the read offset resets to zero and the poll delivers nothing —
consumed content is not re-delivered; in every other poll (file at least as
long as the offset, or file absent) the offset is monotonically
non-decreasing. -/
theorem c6_offset_reset_and_monotone (st : BridgeSt) (file : Option (List Char))
    (pos : Nat) :
    (∀ s, file = some s → s.length < pos →
        watcherPoll st file pos = (st, 0, ⟨[], false⟩))
    ∧ (∀ s, file = some s → pos ≤ s.length →
        pos ≤ (watcherPoll st file pos).2.1)
    ∧ (file = none → watcherPoll st file pos = (st, pos, ⟨[], false⟩)) := by
  refine ⟨?_, ?_, ?_⟩
  · intro s hf hlt
    subst hf
    have hdrop : s.drop pos = [] := List.drop_eq_nil_iff.mpr (Nat.le_of_lt hlt)
    show (let newData := s.drop pos
          if newData.isEmpty then
            (st, if s.length < pos then 0 else pos, (⟨[], false⟩ : WatchOut))
          else
            match processLines st (splitNl (stripChars newData)) with
            | (st2, out) => (st2, s.length, out)) = (st, 0, ⟨[], false⟩)
    simp only [hdrop, List.isEmpty_nil, if_true, if_pos hlt]
  · intro s hf hle
    subst hf
    show pos ≤ ((let newData := s.drop pos
          if newData.isEmpty then
            (st, if s.length < pos then 0 else pos, (⟨[], false⟩ : WatchOut))
          else
            match processLines st (splitNl (stripChars newData)) with
            | (st2, out) => (st2, s.length, out)) : BridgeSt × Nat × WatchOut).2.1
    by_cases hemp : (s.drop pos).isEmpty
    · have hnlt : ¬ s.length < pos := Nat.not_lt.mpr hle
      simp only [hemp, if_true, if_neg hnlt]
      exact Nat.le_refl pos
    · simp only [hemp, if_false, Bool.false_eq_true]
      cases hpl : processLines st (splitNl (stripChars (s.drop pos))) with
      | mk st2 out => exact hle
  · intro hf
    subst hf
    rfl

theorem c6_offset_reset_and_monotone_witness :
    (some ("ab".data) = some ("ab".data) ∧ ("ab".data).length < 5
      ∧ watcherPoll ⟨0, [], 1⟩ (some ("ab".data)) 5 = (⟨0, [], 1⟩, 0, ⟨[], false⟩))
    ∧ (2 ≤ ("ab".data).length
      ∧ 2 ≤ (watcherPoll ⟨0, [], 1⟩ (some ("ab".data)) 2).2.1)
    ∧ watcherPoll ⟨0, [], 1⟩ none 3 = (⟨0, [], 1⟩, 3, ⟨[], false⟩) := by
  refine ⟨⟨rfl, by decide, ?_⟩, ⟨by decide, ?_⟩, ?_⟩
  · exact (c6_offset_reset_and_monotone ⟨0, [], 1⟩ (some ("ab".data)) 5).1
      ("ab".data) rfl (by decide)
  · exact (c6_offset_reset_and_monotone ⟨0, [], 1⟩ (some ("ab".data)) 2).2.1
      ("ab".data) rfl (by decide)
  · exact (c6_offset_reset_and_monotone ⟨0, [], 1⟩ none 3).2.2 rfl

/-- C7 (code behaviour at the failing input).  The command-log line `123` is
valid JSON but not an object: `json.loads` succeeds, and
`handle_plugin_message` then raises `AttributeError` at `msg.get("type")`,
which `except (json.JSONDecodeError, KeyError)` does not catch — the watcher
loop dies, nothing is delivered, and a well-formed command on the very next
line is never processed.  The same file without the `123` line is handled
fine, registering the `signOut` request. -/
theorem c7_nonobject_line_kills_watcher :
    parseJson ("123".data) = .ok (.num 123)
    ∧ handle_plugin_message ⟨0, [], 1⟩ (.num 123) = (⟨0, [], 1⟩, .error .other)
    ∧ watcherPoll ⟨0, [], 1⟩
        (some (("123\n\x7b\"type\": \"signOut\", \"id\": \"x\"\x7d\n").data)) 0
      = (⟨0, [], 1⟩, ("123\n\x7b\"type\": \"signOut\", \"id\": \"x\"\x7d\n").length,
         ⟨[], true⟩)
    ∧ watcherPoll ⟨0, [], 1⟩
        (some (("\x7b\"type\": \"signOut\", \"id\": \"x\"\x7d\n").data)) 0
      = (⟨1, [(JVal.num 1, JVal.str "x", "signOut")], 1⟩,
         ("\x7b\"type\": \"signOut\", \"id\": \"x\"\x7d\n").length,
         ⟨[.obj [("type", .str "signOut"), ("id", .str "x")]], false⟩) :=
  ⟨rfl, rfl, rfl, rfl⟩
